import Mathlib

/-!
Verification of `src/openvpnmsica/openvpnmsica.c` (OpenVPN MSI custom action DLL).

This file shallowly embeds the logic of the three custom actions
(`EvaluateTAPInterfaces`, `ProcessDeferredAction`, and the helper
`openvpnmsica_setup_sequence_filename`) and proves the specified
properties about them.

Modelling conventions:
* Win32 error codes are `Nat` (`ERROR_SUCCESS = 0`); `INSTALLSTATE`
  values are `Int` (the Windows enum has negative members).
* Strings are Lean `String`s; a `TCHAR` buffer holding a path is the
  string of its characters before the terminator.
* Calls into external collaborators (MSI API, file system, the
  operation-sequence library `msica_op.c`, which is not part of the
  visible sources) are represented by environment records that carry
  the outcome each call would produce; the embedded control flow
  branches on those outcomes exactly as the C code branches on the
  returned codes/handles.
-/

/-! ## Win32 / MSI constants used by the source -/

def ERROR_SUCCESS : Nat := 0
def ERROR_FILE_NOT_FOUND : Nat := 2
def ERROR_INVALID_HANDLE : Nat := 6
def ERROR_INVALID_FIELD : Nat := 1616
def ERROR_INSTALL_USEREXIT : Nat := 1602
def ERROR_INSTALL_FAILURE : Nat := 1603

def INSTALLSTATE_BROKEN : Int := 0
def INSTALLSTATE_ADVERTISED : Int := 1
def INSTALLSTATE_ABSENT : Int := 2
def INSTALLSTATE_LOCAL : Int := 3

/-- `MSICA_INTERFACE_TICK_SIZE` (`16*1024`), the progress-tick cost the source
assigns to one TAP interface creation/deletion. -/
def MSICA_INTERFACE_TICK_SIZE : Nat := 16 * 1024

/-- Number of cleanup actions (`MSICA_CLEANUP_ACTION_COUNT`): commit and rollback. -/
def MSICA_CLEANUP_ACTION_COUNT : Nat := 2

/-! ## Operations (`msica_op`)

The operation kinds appearing in `openvpnmsica.c`:
`msica_op_rollback_enable` (bool payload), `msica_op_tap_interface_create`
(string payload), `msica_op_tap_interface_delete_by_name` (string payload)
and `msica_op_file_delete` (string payload).  Each operation carries its
progress-tick count, as in `msica_op_create_bool`/`msica_op_create_string`. -/

inductive MsicaOp where
  | rollbackEnable (ticks : Nat) (value : Bool)
  | tapInterfaceCreate (ticks : Nat) (name : String)
  | tapInterfaceDeleteByName (ticks : Nat) (name : String)
  | fileDelete (ticks : Nat) (path : String)
deriving DecidableEq, Repr

/-! ## `PathFindExtension` and the cleanup-sequence filename derivation

`openvpnmsica_setup_sequence_filename` (planning side, lines 115-139) and
`ProcessDeferredAction` (deferred side, lines 589-598 / 611-616 / 654-659)
both derive the commit/rollback cleanup filenames from a base path with
`_stprintf_s(szFilenameEx, _countof(szFilenameEx), TEXT("%.*s-%.2s%s"),
(int)(szExtension - szBase), szBase, szSuffix, szExtension)` where
`szExtension = PathFindExtension(szBase)`.

`PathFindExtension` (shlwapi) scans the string once, remembering the
position of the last `'.'` and forgetting it again at every `'\\'` or
`' '`; it returns that position, or the end of the string when no
extension was found. -/

def pathFindExtLoop : List Char → Nat → Option Nat → Option Nat
  | [], _, last => last
  | c :: cs, i, last =>
    if c = '\\' ∨ c = ' ' then pathFindExtLoop cs (i + 1) none
    else if c = '.' then pathFindExtLoop cs (i + 1) (some i)
    else pathFindExtLoop cs (i + 1) last

/-- Index at which the extension (including the dot) of `s` starts;
`s.length` when `s` has no extension. -/
def pathFindExtension (s : String) : Nat :=
  (pathFindExtLoop s.data 0 none).getD s.length

/-- First `n` characters of `s` (`%.*s` with precision `n`). -/
def strTake (s : String) (n : Nat) : String := String.mk (s.data.take n)

/-- Characters of `s` from index `n` on (printing from the pointer `s + n`). -/
def strDrop (s : String) (n : Nat) : String := String.mk (s.data.drop n)

/-- The two-character cleanup suffixes of `openvpnmsica_cleanup_action_seqs`:
index 0 is commit (`"cm"`), index 1 is rollback (`"rb"`). -/
def cleanupActionSuffix : Fin 2 → String
  | 0 => "cm"
  | 1 => "rb"

/-- Cleanup filename as derived by `openvpnmsica_setup_sequence_filename`
(lines 124-129): `TEXT("%.*s-%.2s%s")` applied to the base filename split
at `PathFindExtension`. -/
def setupSequenceCleanupFilename (base suffix : String) : String :=
  strTake base (pathFindExtension base) ++ "-" ++ strTake suffix 2
    ++ strDrop base (pathFindExtension base)

/-- Cleanup filename as derived inside `ProcessDeferredAction`
(lines 593-598, and identically at 611-616 and 654-659): the same
`TEXT("%.*s-%.2s%s")` format applied to the sequence filename read from
`CustomActionData`. -/
def deferredCleanupFilename (base suffix : String) : String :=
  strTake base (pathFindExtension base) ++ "-" ++ strTake suffix 2
    ++ strDrop base (pathFindExtension base)

/-- Modelled from the spec: the spec (§3 "Correlation Token / Filename
Naming" and §6) describes the derived name as the base name with the
2-character phase suffix inserted directly before the file extension
(`base+"cm"`, `base+"rb"`), with no separator.  This definition follows
those words, for comparison with the derivation the source performs. -/
def specCleanupFilename (base suffix : String) : String :=
  strTake base (pathFindExtension base) ++ suffix
    ++ strDrop base (pathFindExtension base)

/-- The position remembered by `pathFindExtLoop` always points at a `'.'`
of the original character list. -/
theorem pathFindExtLoop_dot (cs : List Char) (i : Nat) (last : Option Nat)
    (orig : List Char)
    (hinv : ∀ j, last = some j → orig.get? j = some '.')
    (hsuf : ∀ k, orig.get? (i + k) = cs.get? k) :
    ∀ j, pathFindExtLoop cs i last = some j → orig.get? j = some '.' := by
  induction cs generalizing i last with
  | nil => simpa [pathFindExtLoop] using hinv
  | cons c cs ih =>
    intro j hj
    have hshift : ∀ k, orig.get? (i + 1 + k) = cs.get? k := by
      intro k
      have := hsuf (k + 1)
      simpa [Nat.add_assoc, Nat.add_comm 1 k] using this
    by_cases hsep : c = '\\' ∨ c = ' '
    · rw [pathFindExtLoop, if_pos hsep] at hj
      exact ih (i + 1) none (by intro j h; cases h) hshift j hj
    · by_cases hdot : c = '.'
      · rw [pathFindExtLoop, if_neg hsep, if_pos hdot] at hj
        refine ih (i + 1) (some i) ?_ hshift j hj
        intro j hji
        cases hji
        simpa [hdot] using hsuf 0
      · rw [pathFindExtLoop, if_neg hsep, if_neg hdot] at hj
        exact ih (i + 1) last hinv hshift j hj

/-- When `pathFindExtension` reports an extension, the reported index is
the position of a `'.'` in the path. -/
theorem pathFindExtension_dot (s : String) (h : pathFindExtension s < s.length) :
    s.data.get? (pathFindExtension s) = some '.' := by
  unfold pathFindExtension at h ⊢
  cases hloop : pathFindExtLoop s.data 0 none with
  | none =>
    rw [hloop] at h
    exact absurd h (by simp)
  | some j =>
    simp only [Option.getD]
    exact pathFindExtLoop_dot s.data 0 none s.data (by intro j h; cases h)
      (by intro k; simp) j hloop

/-! ## `EvaluateTAPInterfaces`: the planning phase

The row loop of `EvaluateTAPInterfaces` (lines 279-452).  Each fetched
`TAPInterface` row triggers a fixed series of external calls; a `RowEnv`
records the outcome each of those calls would return for that row:

* `stateCode`, `iInstalled`, `iAction` — `msi_get_record_string(hRecord, 4, ...)`
  followed by `MsiGetComponentState`; `stateCode` is the first non-success
  code of the two (`ERROR_SUCCESS` when both succeed);
* `nameCode`, `displayName` — `msi_format_field(hInstall, hRecord, 2, ...)`;
* `condCode`, `conditionText` — `msi_get_record_string(hRecord, 3, ...)`
  (only consulted on the install branch);
* `condEval` — `MsiEvaluateCondition(hInstall, conditionText)`;
* `cancel` — whether `MsiProcessMessage(..., INSTALLMESSAGE_PROGRESS, ...)`
  returns `IDCANCEL` for this row's tick-total increment.

`MsiViewFetch` is assumed to deliver exactly the rows of the list, in
source order, then `ERROR_NO_MORE_ITEMS`. -/

inductive MsiCondition where
  | condFalse
  | condError
  | condTrue
  | condNone
deriving DecidableEq, Repr

structure RowEnv where
  stateCode : Nat
  iInstalled : Int
  iAction : Int
  nameCode : Nat
  displayName : String
  condCode : Nat
  conditionText : String
  condEval : MsiCondition
  cancel : Bool
deriving DecidableEq, Repr

/-- The two operation sequences built by planning: `exec_seq[0]`
(`InstallTAPInterfaces`) and `exec_seq[1]` (`UninstallTAPInterfaces`). -/
structure PlanState where
  install : List MsicaOp
  uninstall : List MsicaOp
deriving DecidableEq, Repr

/-- `_ttoi`/`atoi`: skip whitespace, optional sign, leading digits; 0 when
no digits. -/
def atoiDigits : List Char → Int → Int
  | [], acc => acc
  | c :: cs, acc =>
    if c.isDigit then atoiDigits cs (acc * 10 + (c.toNat - 48 : Int)) else acc

def ttoi (s : String) : Int :=
  let cs := s.data.dropWhile fun c =>
    c = ' ' ∨ c = '\t' ∨ c = '\n' ∨ c = '\x0b' ∨ c = '\x0c' ∨ c = '\r'
  match cs with
  | '-' :: rest => - atoiDigits rest 0
  | '+' :: rest => atoiDigits rest 0
  | _ => atoiDigits cs 0

/-- The rollback-enabled state read once at the start of planning
(lines 280-285): when reading the `RollbackDisabled` property succeeds
(`prop = some value`), rollback is disabled when the value parses to a
nonzero integer or starts (case-insensitively) with `'y'`; when the
property read fails, rollback is enabled. -/
def rollbackEnabledState : Option String → Bool
  | some v =>
    if ttoi v ≠ 0 ∨ (v.data.headD '\x00').toLower = 'y' then false else true
  | none => true

/-- One iteration of the row loop (lines 343-452), starting from the
sequences built so far.  `.error (e, st)` means the loop aborts with
`uiResult = e` leaving the in-memory sequences at `st`; `.ok st` means
the loop proceeds to the next row. -/
def processRow (st : PlanState) (r : RowEnv) : Except (Nat × PlanState) PlanState :=
  if r.stateCode ≠ ERROR_SUCCESS then .error (r.stateCode, st)
  else if r.nameCode ≠ ERROR_SUCCESS then .error (r.nameCode, st)
  else if INSTALLSTATE_BROKEN < r.iAction then
    if INSTALLSTATE_LOCAL ≤ r.iAction then
      if r.condCode ≠ ERROR_SUCCESS then .error (r.condCode, st)
      else
        match r.condEval with
        | .condFalse => .ok st
        | .condError => .error (ERROR_INVALID_FIELD, st)
        | _ =>
          let st2 : PlanState :=
            ⟨st.install
              ++ [MsicaOp.tapInterfaceCreate MSICA_INTERFACE_TICK_SIZE r.displayName],
             st.uninstall⟩
          if r.cancel then .error (ERROR_INSTALL_USEREXIT, st2) else .ok st2
    else
      let st2 : PlanState :=
        ⟨st.install,
         st.uninstall
           ++ [MsicaOp.tapInterfaceDeleteByName MSICA_INTERFACE_TICK_SIZE r.displayName]⟩
      if r.cancel then .error (ERROR_INSTALL_USEREXIT, st2) else .ok st2
  else .ok st

/-- The row loop over a whole list of rows. -/
def planRowsGo (st : PlanState) : List RowEnv → Nat × PlanState
  | [] => (ERROR_SUCCESS, st)
  | r :: rs =>
    match processRow st r with
    | .ok st2 => planRowsGo st2 rs
    | .error (e, st2) => (e, st2)

/-- Initial sequences: both prefixed with the single
`msica_op_rollback_enable` operation built from the flag read once at
planning time (lines 286-293; tick count 0). -/
def planInitState (enableRollback : Bool) : PlanState :=
  ⟨[MsicaOp.rollbackEnable 0 enableRollback],
   [MsicaOp.rollbackEnable 0 enableRollback]⟩

def planRows (enableRollback : Bool) (rows : List RowEnv) : Nat × PlanState :=
  planRowsGo (planInitState enableRollback) rows

/-- In-memory planning part of `EvaluateTAPInterfaces`: read the
rollback flag once, seed both sequences with it, then run the row loop. -/
def evaluateTAPInterfacesPlan (rollbackDisabledProp : Option String)
    (rows : List RowEnv) : Nat × PlanState :=
  planRows (rollbackEnabledState rollbackDisabledProp) rows

/-- The forward-journal entry a row contributes (lines 384-423): a
`create-named-interface` operation exactly when the component state was
read, the display name was formatted, the action state is above
`INSTALLSTATE_BROKEN` and at least `INSTALLSTATE_LOCAL`, the condition
was read and it evaluated to true or to none (the result on empty text). -/
def installEntry (r : RowEnv) : Option MsicaOp :=
  if r.stateCode = ERROR_SUCCESS ∧ r.nameCode = ERROR_SUCCESS
      ∧ INSTALLSTATE_BROKEN < r.iAction ∧ INSTALLSTATE_LOCAL ≤ r.iAction
      ∧ r.condCode = ERROR_SUCCESS
      ∧ (r.condEval = MsiCondition.condTrue ∨ r.condEval = MsiCondition.condNone)
  then some (MsicaOp.tapInterfaceCreate MSICA_INTERFACE_TICK_SIZE r.displayName)
  else none

/-- The inverse-journal entry a row contributes (lines 424-434): a
`delete-interface-by-name` operation exactly when the component state was
read, the display name was formatted and the action state lies strictly
between `INSTALLSTATE_BROKEN` and `INSTALLSTATE_LOCAL` (the component is
installed but being removed or degraded to advertised); the row's
condition is never consulted on this branch. -/
def uninstallEntry (r : RowEnv) : Option MsicaOp :=
  if r.stateCode = ERROR_SUCCESS ∧ r.nameCode = ERROR_SUCCESS
      ∧ INSTALLSTATE_BROKEN < r.iAction ∧ r.iAction < INSTALLSTATE_LOCAL
  then some (MsicaOp.tapInterfaceDeleteByName MSICA_INTERFACE_TICK_SIZE r.displayName)
  else none

/-- Whether a row reaches the progress/cancellation check at
lines 436-443 without skipping or aborting earlier. -/
def rowReachesProgress (r : RowEnv) : Bool :=
  decide (r.stateCode = ERROR_SUCCESS) && decide (r.nameCode = ERROR_SUCCESS)
    && decide (INSTALLSTATE_BROKEN < r.iAction)
    && (if INSTALLSTATE_LOCAL ≤ r.iAction then
          decide (r.condCode = ERROR_SUCCESS)
            && (match r.condEval with
                | MsiCondition.condTrue => true
                | MsiCondition.condNone => true
                | _ => false)
        else true)

/-! ### Row-loop lemmas -/

theorem planRowsGo_cons_ok (st st2 : PlanState) (r : RowEnv) (rs : List RowEnv)
    (hp : processRow st r = .ok st2) :
    planRowsGo st (r :: rs) = planRowsGo st2 rs := by
  simp [planRowsGo, hp]

theorem planRowsGo_cons_error (st st2 : PlanState) (r : RowEnv) (rs : List RowEnv)
    (e : Nat) (hp : processRow st r = .error (e, st2)) :
    planRowsGo st (r :: rs) = (e, st2) := by
  simp [planRowsGo, hp]

/-- Every abort code produced by one row iteration is a failure code. -/
theorem processRow_error_code (st st2 : PlanState) (r : RowEnv) (e : Nat)
    (h : processRow st r = .error (e, st2)) : e ≠ ERROR_SUCCESS := by
  unfold processRow at h
  by_cases h1 : r.stateCode ≠ ERROR_SUCCESS
  · rw [if_pos h1] at h
    simp only [Except.error.injEq, Prod.mk.injEq] at h
    exact h.1 ▸ h1
  · rw [if_neg h1] at h
    by_cases h2 : r.nameCode ≠ ERROR_SUCCESS
    · rw [if_pos h2] at h
      simp only [Except.error.injEq, Prod.mk.injEq] at h
      exact h.1 ▸ h2
    · rw [if_neg h2] at h
      by_cases h3 : INSTALLSTATE_BROKEN < r.iAction
      · rw [if_pos h3] at h
        by_cases h4 : INSTALLSTATE_LOCAL ≤ r.iAction
        · rw [if_pos h4] at h
          by_cases h5 : r.condCode ≠ ERROR_SUCCESS
          · rw [if_pos h5] at h
            simp only [Except.error.injEq, Prod.mk.injEq] at h
            exact h.1 ▸ h5
          · rw [if_neg h5] at h
            cases hev : r.condEval <;> rw [hev] at h
            · exact absurd h (by simp)
            · simp only [Except.error.injEq, Prod.mk.injEq] at h
              rw [← h.1]
              decide
            · by_cases hc : r.cancel = true
              · rw [if_pos hc] at h
                simp only [Except.error.injEq, Prod.mk.injEq] at h
                rw [← h.1]
                decide
              · rw [if_neg hc] at h
                exact absurd h (by simp)
            · by_cases hc : r.cancel = true
              · rw [if_pos hc] at h
                simp only [Except.error.injEq, Prod.mk.injEq] at h
                rw [← h.1]
                decide
              · rw [if_neg hc] at h
                exact absurd h (by simp)
        · rw [if_neg h4] at h
          by_cases hc : r.cancel = true
          · rw [if_pos hc] at h
            simp only [Except.error.injEq, Prod.mk.injEq] at h
            rw [← h.1]
            decide
          · rw [if_neg hc] at h
            exact absurd h (by simp)
      · rw [if_neg h3] at h
        exact absurd h (by simp)

/-- When a row iteration continues, the sequences grow by exactly the
entries `installEntry`/`uninstallEntry` describe. -/
theorem processRow_ok_spec (st st2 : PlanState) (r : RowEnv)
    (h : processRow st r = .ok st2) :
    st2.install = st.install ++ (installEntry r).toList
      ∧ st2.uninstall = st.uninstall ++ (uninstallEntry r).toList := by
  unfold processRow at h
  by_cases h1 : r.stateCode ≠ ERROR_SUCCESS
  · rw [if_pos h1] at h
    exact absurd h (by simp)
  · rw [if_neg h1] at h
    push_neg at h1
    by_cases h2 : r.nameCode ≠ ERROR_SUCCESS
    · rw [if_pos h2] at h
      exact absurd h (by simp)
    · rw [if_neg h2] at h
      push_neg at h2
      by_cases h3 : INSTALLSTATE_BROKEN < r.iAction
      · rw [if_pos h3] at h
        by_cases h4 : INSTALLSTATE_LOCAL ≤ r.iAction
        · rw [if_pos h4] at h
          have hnotdel : ¬ r.iAction < INSTALLSTATE_LOCAL := by omega
          by_cases h5 : r.condCode ≠ ERROR_SUCCESS
          · rw [if_pos h5] at h
            exact absurd h (by simp)
          · rw [if_neg h5] at h
            push_neg at h5
            cases hev : r.condEval <;> rw [hev] at h
            · obtain rfl : st = st2 := by simpa using h
              simp [installEntry, uninstallEntry, hev, hnotdel]
            · exact absurd h (by simp)
            · by_cases hc : r.cancel = true
              · rw [if_pos hc] at h
                exact absurd h (by simp)
              · rw [if_neg hc] at h
                obtain rfl :
                    (⟨st.install
                        ++ [MsicaOp.tapInterfaceCreate MSICA_INTERFACE_TICK_SIZE
                              r.displayName],
                      st.uninstall⟩ : PlanState) = st2 := by simpa using h
                simp [installEntry, uninstallEntry, hev, h1, h2, h3, h4, h5, hnotdel]
            · by_cases hc : r.cancel = true
              · rw [if_pos hc] at h
                exact absurd h (by simp)
              · rw [if_neg hc] at h
                obtain rfl :
                    (⟨st.install
                        ++ [MsicaOp.tapInterfaceCreate MSICA_INTERFACE_TICK_SIZE
                              r.displayName],
                      st.uninstall⟩ : PlanState) = st2 := by simpa using h
                simp [installEntry, uninstallEntry, hev, h1, h2, h3, h4, h5, hnotdel]
        · rw [if_neg h4] at h
          have hdel : r.iAction < INSTALLSTATE_LOCAL := by omega
          by_cases hc : r.cancel = true
          · rw [if_pos hc] at h
            exact absurd h (by simp)
          · rw [if_neg hc] at h
            obtain rfl :
                (⟨st.install,
                  st.uninstall
                    ++ [MsicaOp.tapInterfaceDeleteByName MSICA_INTERFACE_TICK_SIZE
                          r.displayName]⟩ : PlanState) = st2 := by simpa using h
            simp [installEntry, uninstallEntry, h1, h2, h3, h4, hdel]
      · rw [if_neg h3] at h
        obtain rfl : st = st2 := by simpa using h
        simp [installEntry, uninstallEntry, h3]

/-- Extending the row list past a successfully processed prefix continues
from the prefix's final state. -/
theorem planRowsGo_append (pre rest : List RowEnv) (st st' : PlanState)
    (h : planRowsGo st pre = (ERROR_SUCCESS, st')) :
    planRowsGo st (pre ++ rest) = planRowsGo st' rest := by
  induction pre generalizing st with
  | nil =>
    obtain rfl : st = st' := by simpa [planRowsGo] using h
    simp
  | cons r rs ih =>
    cases hp : processRow st r with
    | ok st2 =>
      rw [List.cons_append, planRowsGo_cons_ok st st2 r (rs ++ rest) hp]
      exact ih st2 (by rwa [planRowsGo_cons_ok st st2 r rs hp] at h)
    | error p =>
      obtain ⟨e, st2⟩ := p
      rw [planRowsGo_cons_error st st2 r rs e hp] at h
      have he : e = ERROR_SUCCESS := congrArg Prod.fst h
      exact absurd he (processRow_error_code st st2 r e hp)

/-- A successful run of the row loop appends exactly the
`installEntry`/`uninstallEntry` contributions of the rows, in order. -/
theorem planRowsGo_success_spec (rows : List RowEnv) (st st' : PlanState)
    (h : planRowsGo st rows = (ERROR_SUCCESS, st')) :
    st'.install = st.install ++ rows.filterMap installEntry
      ∧ st'.uninstall = st.uninstall ++ rows.filterMap uninstallEntry := by
  induction rows generalizing st with
  | nil =>
    obtain rfl : st = st' := by simpa [planRowsGo] using h
    simp
  | cons r rs ih =>
    cases hp : processRow st r with
    | ok st2 =>
      rw [planRowsGo_cons_ok st st2 r rs hp] at h
      obtain ⟨hi, hu⟩ := ih st2 h
      obtain ⟨hi2, hu2⟩ := processRow_ok_spec st st2 r hp
      constructor
      · rw [hi, hi2]
        cases hE : installEntry r <;> simp [hE]
      · rw [hu, hu2]
        cases hE : uninstallEntry r <;> simp [hE]
    | error p =>
      obtain ⟨e, st2⟩ := p
      rw [planRowsGo_cons_error st st2 r rs e hp] at h
      have he : e = ERROR_SUCCESS := congrArg Prod.fst h
      exact absurd he (processRow_error_code st st2 r e hp)

/-- A row that reaches the progress message and sees `IDCANCEL` aborts
the loop with `ERROR_INSTALL_USEREXIT`. -/
theorem processRow_cancel (st : PlanState) (r : RowEnv)
    (hq : rowReachesProgress r = true) (hc : r.cancel = true) :
    ∃ st2, processRow st r = .error (ERROR_INSTALL_USEREXIT, st2) := by
  unfold rowReachesProgress at hq
  simp only [Bool.and_eq_true, decide_eq_true_eq] at hq
  obtain ⟨⟨⟨h1, h2⟩, h3⟩, h4⟩ := hq
  unfold processRow
  rw [if_neg (by simp [h1]), if_neg (by simp [h2]), if_pos h3]
  by_cases h5 : INSTALLSTATE_LOCAL ≤ r.iAction
  · rw [if_pos h5] at h4 ⊢
    simp only [Bool.and_eq_true, decide_eq_true_eq] at h4
    obtain ⟨h6, h7⟩ := h4
    rw [if_neg (by simp [h6])]
    cases hev : r.condEval
    · rw [hev] at h7
      exact absurd h7 (by decide)
    · rw [hev] at h7
      exact absurd h7 (by decide)
    · refine ⟨⟨st.install
          ++ [MsicaOp.tapInterfaceCreate MSICA_INTERFACE_TICK_SIZE r.displayName],
        st.uninstall⟩, ?_⟩
      simp [hc]
    · refine ⟨⟨st.install
          ++ [MsicaOp.tapInterfaceCreate MSICA_INTERFACE_TICK_SIZE r.displayName],
        st.uninstall⟩, ?_⟩
      simp [hc]
  · rw [if_neg h5]
    refine ⟨⟨st.install,
      st.uninstall
        ++ [MsicaOp.tapInterfaceDeleteByName MSICA_INTERFACE_TICK_SIZE r.displayName]⟩, ?_⟩
    simp [hc]

/-! ### Planner claim theorems -/

/-- C3: for every row of the planning table, the inverse (uninstall)
sequence receives exactly one `delete-interface-by-name` entry carrying
that row's display name if and only if the row's action state says the
owning component — currently installed — is being removed or degraded
(`INSTALLSTATE_BROKEN < iAction < INSTALLSTATE_LOCAL`), and this is
independent of the row's Condition text: under a successful planning run
the uninstall sequence is the enable-rollback prefix followed by the
`uninstallEntry` contribution of each row in source order, and
`uninstallEntry` depends only on the component-state outcome, the
display-name outcome and the action state — never on the condition
fields. -/
theorem c3_uninstall_entries (prop : Option String) (rows : List RowEnv)
    (hok : (evaluateTAPInterfacesPlan prop rows).1 = ERROR_SUCCESS) :
    (evaluateTAPInterfacesPlan prop rows).2.uninstall
        = MsicaOp.rollbackEnable 0 (rollbackEnabledState prop)
            :: rows.filterMap uninstallEntry
      ∧ ∀ r r' : RowEnv, r'.stateCode = r.stateCode → r'.nameCode = r.nameCode
          → r'.iAction = r.iAction → r'.displayName = r.displayName
          → uninstallEntry r' = uninstallEntry r := by
  constructor
  · have heq : planRowsGo (planInitState (rollbackEnabledState prop)) rows
        = (ERROR_SUCCESS, (evaluateTAPInterfacesPlan prop rows).2) := by
      rw [← hok]
      exact Prod.mk.eta.symm
    obtain ⟨-, hu⟩ := planRowsGo_success_spec rows _ _ heq
    rw [hu]
    simp [planInitState]
  · intro r r' e1 e2 e3 e4
    unfold uninstallEntry
    rw [e1, e2, e3, e4]

/-- C3 witness: a concrete two-row table (one leaving component, one
installing component) plans successfully and yields exactly one delete
entry, for the leaving row. -/
theorem c3_uninstall_entries_witness :
    (evaluateTAPInterfacesPlan none [⟨0, 3, 2, 0, "A", 0, "", .condNone, false⟩,
        ⟨0, 2, 3, 0, "B", 0, "", .condNone, false⟩]).1 = ERROR_SUCCESS
      ∧ (evaluateTAPInterfacesPlan none [⟨0, 3, 2, 0, "A", 0, "", .condNone, false⟩,
          ⟨0, 2, 3, 0, "B", 0, "", .condNone, false⟩]).2.uninstall
        = MsicaOp.rollbackEnable 0 (rollbackEnabledState none)
            :: [(⟨0, 3, 2, 0, "A", 0, "", .condNone, false⟩ : RowEnv),
                ⟨0, 2, 3, 0, "B", 0, "", .condNone, false⟩].filterMap uninstallEntry :=
  ⟨by decide,
   (c3_uninstall_entries none [⟨0, 3, 2, 0, "A", 0, "", .condNone, false⟩,
      ⟨0, 2, 3, 0, "B", 0, "", .condNone, false⟩] (by decide)).1⟩

/-- C4: under a successful planning run, the forward (install) sequence
is a single `enable-rollback` entry carrying the flag read once at
planning time, followed — in source row order — by exactly one
`create-named-interface` entry per row whose action state is at least
`INSTALLSTATE_LOCAL` and whose condition evaluated true or none (none
being `MsiEvaluateCondition`'s result on empty condition text, assumed
by `hMsi`); the uninstall sequence starts with the same single
`enable-rollback` entry followed only by delete entries. -/
theorem c4_install_journal (prop : Option String) (rows : List RowEnv)
    (hMsi : ∀ r ∈ rows, r.conditionText = "" → r.condEval = MsiCondition.condNone)
    (hok : (evaluateTAPInterfacesPlan prop rows).1 = ERROR_SUCCESS) :
    (evaluateTAPInterfacesPlan prop rows).2.install
        = MsicaOp.rollbackEnable 0 (rollbackEnabledState prop)
            :: rows.filterMap installEntry
      ∧ (evaluateTAPInterfacesPlan prop rows).2.uninstall
          = MsicaOp.rollbackEnable 0 (rollbackEnabledState prop)
              :: rows.filterMap uninstallEntry
      ∧ (∀ op ∈ rows.filterMap installEntry,
           ∃ n, op = MsicaOp.tapInterfaceCreate MSICA_INTERFACE_TICK_SIZE n)
      ∧ (∀ op ∈ rows.filterMap uninstallEntry,
           ∃ n, op = MsicaOp.tapInterfaceDeleteByName MSICA_INTERFACE_TICK_SIZE n)
      ∧ (∀ r ∈ rows, r.stateCode = ERROR_SUCCESS → r.nameCode = ERROR_SUCCESS
           → r.condCode = ERROR_SUCCESS → INSTALLSTATE_LOCAL ≤ r.iAction
           → r.conditionText = ""
           → installEntry r
               = some (MsicaOp.tapInterfaceCreate MSICA_INTERFACE_TICK_SIZE
                   r.displayName)) := by
  have heq : planRowsGo (planInitState (rollbackEnabledState prop)) rows
      = (ERROR_SUCCESS, (evaluateTAPInterfacesPlan prop rows).2) := by
    rw [← hok]
    exact Prod.mk.eta.symm
  obtain ⟨hi, hu⟩ := planRowsGo_success_spec rows _ _ heq
  refine ⟨?_, ?_, ?_, ?_, ?_⟩
  · rw [hi]
    simp [planInitState]
  · rw [hu]
    simp [planInitState]
  · intro op hop
    rw [List.mem_filterMap] at hop
    obtain ⟨r, -, hr⟩ := hop
    unfold installEntry at hr
    split at hr
    · simp only [Option.some.injEq] at hr
      exact ⟨r.displayName, hr.symm⟩
    · exact absurd hr (by simp)
  · intro op hop
    rw [List.mem_filterMap] at hop
    obtain ⟨r, -, hr⟩ := hop
    unfold uninstallEntry at hr
    split at hr
    · simp only [Option.some.injEq] at hr
      exact ⟨r.displayName, hr.symm⟩
    · exact absurd hr (by simp)
  · intro r hr hs hn hcc ha he
    have hNone := hMsi r hr he
    have hb : INSTALLSTATE_BROKEN < r.iAction := by
      simp only [INSTALLSTATE_BROKEN, INSTALLSTATE_LOCAL] at ha ⊢
      omega
    unfold installEntry
    rw [if_pos ⟨hs, hn, hb, ha, hcc, Or.inr hNone⟩]

/-- C4 witness: on the concrete two-row table, planning succeeds and the
install sequence is exactly the enable-rollback prefix plus one create
entry for the installing row. -/
theorem c4_install_journal_witness :
    (∀ r ∈ [(⟨0, 3, 2, 0, "A", 0, "", .condNone, false⟩ : RowEnv),
        ⟨0, 2, 3, 0, "B", 0, "", .condNone, false⟩],
      r.conditionText = "" → r.condEval = MsiCondition.condNone)
      ∧ (evaluateTAPInterfacesPlan none [⟨0, 3, 2, 0, "A", 0, "", .condNone, false⟩,
          ⟨0, 2, 3, 0, "B", 0, "", .condNone, false⟩]).1 = ERROR_SUCCESS
      ∧ (evaluateTAPInterfacesPlan none [⟨0, 3, 2, 0, "A", 0, "", .condNone, false⟩,
          ⟨0, 2, 3, 0, "B", 0, "", .condNone, false⟩]).2.install
        = MsicaOp.rollbackEnable 0 (rollbackEnabledState none)
            :: [(⟨0, 3, 2, 0, "A", 0, "", .condNone, false⟩ : RowEnv),
                ⟨0, 2, 3, 0, "B", 0, "", .condNone, false⟩].filterMap installEntry :=
  ⟨by decide, by decide,
   (c4_install_journal none [⟨0, 3, 2, 0, "A", 0, "", .condNone, false⟩,
      ⟨0, 2, 3, 0, "B", 0, "", .condNone, false⟩] (by decide) (by decide)).1⟩

/-- C8: when a row's condition fails to evaluate
(`MSICONDITION_ERROR`), the row loop aborts at that row with
`ERROR_INVALID_FIELD` — a code distinct from generic install failure and
from success — leaving the sequences exactly as they were after the
preceding rows (no entry for the failing row) and ignoring all
subsequent rows. -/
theorem c8_condition_error_aborts
    (enable : Bool) (pre post : List RowEnv) (r : RowEnv) (stPre : PlanState)
    (hpre : planRowsGo (planInitState enable) pre = (ERROR_SUCCESS, stPre))
    (h1 : r.stateCode = ERROR_SUCCESS) (h2 : r.nameCode = ERROR_SUCCESS)
    (h3 : INSTALLSTATE_LOCAL ≤ r.iAction) (h4 : r.condCode = ERROR_SUCCESS)
    (h5 : r.condEval = MsiCondition.condError) :
    planRows enable (pre ++ r :: post) = (ERROR_INVALID_FIELD, stPre)
      ∧ ERROR_INVALID_FIELD ≠ ERROR_SUCCESS
      ∧ ERROR_INVALID_FIELD ≠ ERROR_INSTALL_FAILURE := by
  refine ⟨?_, by decide, by decide⟩
  rw [planRows, planRowsGo_append pre (r :: post) _ stPre hpre]
  have hb : INSTALLSTATE_BROKEN < r.iAction := by
    simp only [INSTALLSTATE_BROKEN, INSTALLSTATE_LOCAL] at h3 ⊢
    omega
  have hstep : processRow stPre r = .error (ERROR_INVALID_FIELD, stPre) := by
    unfold processRow
    rw [if_neg (by simp [h1]), if_neg (by simp [h2]), if_pos hb, if_pos h3,
      if_neg (by simp [h4]), h5]
  exact planRowsGo_cons_error _ _ _ _ _ hstep

/-- C8 witness: a concrete condition-error row after an empty prefix
aborts planning with `ERROR_INVALID_FIELD`, untouched sequences, and the
following row is not processed. -/
theorem c8_condition_error_aborts_witness :
    planRows true ([] ++ (⟨0, 2, 3, 0, "C", 0, "bad", .condError, false⟩ : RowEnv)
        :: [⟨0, 2, 3, 0, "B", 0, "", .condNone, false⟩])
      = (ERROR_INVALID_FIELD, planInitState true) :=
  (c8_condition_error_aborts true [] [⟨0, 2, 3, 0, "B", 0, "", .condNone, false⟩]
    ⟨0, 2, 3, 0, "C", 0, "bad", .condError, false⟩ (planInitState true)
    rfl rfl rfl (by decide) rfl rfl).1

/-- C9: a cancellation signal observed at the progress-total update of a
qualifying row aborts the row loop with the distinguished
`ERROR_INSTALL_USEREXIT` code, which differs from the generic
`ERROR_INSTALL_FAILURE` and from success. -/
theorem c9_user_cancel_code
    (enable : Bool) (pre post : List RowEnv) (r : RowEnv) (stPre : PlanState)
    (hpre : planRowsGo (planInitState enable) pre = (ERROR_SUCCESS, stPre))
    (hq : rowReachesProgress r = true) (hc : r.cancel = true) :
    (planRows enable (pre ++ r :: post)).1 = ERROR_INSTALL_USEREXIT
      ∧ ERROR_INSTALL_USEREXIT ≠ ERROR_INSTALL_FAILURE
      ∧ ERROR_INSTALL_USEREXIT ≠ ERROR_SUCCESS := by
  refine ⟨?_, by decide, by decide⟩
  rw [planRows, planRowsGo_append pre (r :: post) _ stPre hpre]
  obtain ⟨st2, hstep⟩ := processRow_cancel stPre r hq hc
  rw [planRowsGo_cons_error _ _ _ _ _ hstep]

/-- C9 witness: a concrete leaving-component row whose progress message
returns `IDCANCEL` makes planning return `ERROR_INSTALL_USEREXIT`. -/
theorem c9_user_cancel_code_witness :
    (planRows true ([] ++ (⟨0, 3, 2, 0, "D", 0, "", .condNone, true⟩ : RowEnv) :: [])).1
      = ERROR_INSTALL_USEREXIT :=
  (c9_user_cancel_code true [] [] ⟨0, 3, 2, 0, "D", 0, "", .condNone, true⟩
    (planInitState true) rfl (by decide) rfl).1

/-! ### Cleanup filename derivation (C2) -/

/-- C2 counterexample: the derived cleanup filename is not obtained by
inserting just the 2-character suffix before the extension — the source
format `"%.*s-%.2s%s"` also inserts a dash.  At the concrete base path
`"seq.tmp"` with the commit suffix `"cm"`, the source derivation yields
`"seq-cm.tmp"`, while inserting the bare suffix before the extension (as
the claim words it) yields `"seqcm.tmp"`, and the two differ. -/
theorem c2_cleanup_filename_counterexample :
    deferredCleanupFilename "seq.tmp" "cm" = "seq-cm.tmp"
      ∧ specCleanupFilename "seq.tmp" "cm" = "seqcm.tmp"
      ∧ ("seq-cm.tmp" : String) ≠ "seqcm.tmp" :=
  ⟨by decide, by decide, by decide⟩

/-- C2 (amended): for every base path that has a file extension and
either 2-character phase suffix (`"cm"` for commit, `"rb"` for
rollback), the cleanup journal filename is derived deterministically by
inserting a dash followed by the suffix immediately before the file
extension of the base path; the planning side
(`openvpnmsica_setup_sequence_filename`) and the deferred-execution side
(`ProcessDeferredAction`) compute identical derived names from the same
base path, and the insertion point is the dot beginning the extension. -/
theorem c2_cleanup_filename_derivation (base suffix : String)
    (hext : pathFindExtension base < base.length)
    (hsuf : suffix = "cm" ∨ suffix = "rb") :
    deferredCleanupFilename base suffix = setupSequenceCleanupFilename base suffix
      ∧ deferredCleanupFilename base suffix
          = strTake base (pathFindExtension base) ++ "-" ++ suffix
              ++ strDrop base (pathFindExtension base)
      ∧ base.data.get? (pathFindExtension base) = some '.' := by
  refine ⟨rfl, ?_, pathFindExtension_dot base hext⟩
  cases hsuf with
  | inl h =>
    rw [h]
    unfold deferredCleanupFilename
    rw [show strTake "cm" 2 = "cm" from by decide]
  | inr h =>
    rw [h]
    unfold deferredCleanupFilename
    rw [show strTake "rb" 2 = "rb" from by decide]

/-- C2 witness: the amended derivation theorem applied at the concrete
base `"seq.tmp"` and suffix `"cm"`. -/
theorem c2_cleanup_filename_derivation_witness :
    (pathFindExtension "seq.tmp" < ("seq.tmp" : String).length
        ∧ (("cm" : String) = "cm" ∨ ("cm" : String) = "rb"))
      ∧ deferredCleanupFilename "seq.tmp" "cm"
          = setupSequenceCleanupFilename "seq.tmp" "cm" :=
  ⟨⟨by decide, Or.inl rfl⟩,
   (c2_cleanup_filename_derivation "seq.tmp" "cm" (by decide) (Or.inl rfl)).1⟩

/-! ## `EvaluateTAPInterfaces`: persisting the planned sequences (C7)

The sequence-file writing loop (lines 459-496).  For each deferred
action, `openvpnmsica_setup_sequence_filename` runs (`GetTempPath`,
`GetTempFileName` — which creates the temp file on disk —
`MsiSetProperty` for the action property, then `MsiSetProperty` for each
cleanup property), the file is opened with `CREATE_ALWAYS` and the
sequence saved with `msica_op_seq_save`.  `szSeqFilename[i]` slots start
out empty and receive the generated path as soon as `GetTempPath`
succeeds; on any failure, the cleanup loop at `cleanup_szSeqFilename`
deletes every file named by a non-empty slot. -/

inductive SetupOutcome where
  | tempPathFail (e : Nat)
  | tempFileFail (e : Nat) (dir : String)
  | setPropFail (e : Nat) (path : String)
  | setPropCleanupFail (e : Nat) (path : String)
  | ok (path : String)
deriving DecidableEq, Repr

/-- Result code of `openvpnmsica_setup_sequence_filename` for this outcome. -/
def setupCode : SetupOutcome → Nat
  | .tempPathFail e => e
  | .tempFileFail e _ => e
  | .setPropFail e _ => e
  | .setPropCleanupFail e _ => e
  | .ok _ => ERROR_SUCCESS

/-- Contents of the `szSeqFilename[i]` slot afterwards: still empty when
`GetTempPath` failed, the temp-directory prefix when `GetTempFileName`
failed, and the generated path otherwise. -/
def setupSlot : SetupOutcome → String
  | .tempPathFail _ => ""
  | .tempFileFail _ d => d
  | .setPropFail _ p => p
  | .setPropCleanupFail _ p => p
  | .ok p => p

/-- Files created on disk by this setup call: `GetTempFileName` creates
the (empty) file as soon as it succeeds. -/
def setupCreates : SetupOutcome → List String
  | .tempPathFail _ => []
  | .tempFileFail _ _ => []
  | .setPropFail _ p => [p]
  | .setPropCleanupFail _ p => [p]
  | .ok p => [p]

/-- Well-formedness of an outcome: failing Win32/MSI calls report a
nonzero error code, and a path at which a file got created is nonempty. -/
def setupWf : SetupOutcome → Bool
  | .tempPathFail e => decide (e ≠ ERROR_SUCCESS)
  | .tempFileFail e _ => decide (e ≠ ERROR_SUCCESS)
  | .setPropFail e p => decide (e ≠ ERROR_SUCCESS) && decide (p ≠ "")
  | .setPropCleanupFail e p => decide (e ≠ ERROR_SUCCESS) && decide (p ≠ "")
  | .ok p => decide (p ≠ "")

/-- Environment of one iteration of the writing loop: the setup outcome,
whether `CreateFile` returned `INVALID_HANDLE_VALUE` (with the
`GetLastError` value it would report), and the `msica_op_seq_save`
result. -/
structure PersistEnv where
  setup : SetupOutcome
  createFail : Bool
  createErr : Nat
  saveCode : Nat
deriving DecidableEq, Repr

def persistEnvWf (e : PersistEnv) : Bool :=
  setupWf e.setup && (!e.createFail || decide (e.createErr ≠ ERROR_SUCCESS))

/-- The error code this iteration would abort with (`ERROR_SUCCESS` when
every step succeeds). -/
def persistEnvCode (e : PersistEnv) : Nat :=
  if setupCode e.setup ≠ ERROR_SUCCESS then setupCode e.setup
  else if e.createFail then e.createErr
  else e.saveCode

/-- The writing loop: returns the final `uiResult`, the list of
`szSeqFilename` slots populated (processing order), and the files
created on disk during the loop. -/
def persistGo : List PersistEnv → Nat × List String × List String
  | [] => (ERROR_SUCCESS, [], [])
  | e :: es =>
    if setupCode e.setup ≠ ERROR_SUCCESS then
      (setupCode e.setup, [setupSlot e.setup], setupCreates e.setup)
    else if e.createFail then
      (e.createErr, [setupSlot e.setup], setupCreates e.setup)
    else if e.saveCode ≠ ERROR_SUCCESS then
      (e.saveCode, [setupSlot e.setup], setupCreates e.setup)
    else
      ((persistGo es).1, setupSlot e.setup :: (persistGo es).2.1,
        setupCreates e.setup ++ (persistGo es).2.2)

/-- Error code of the first failing step across the loop. -/
def firstPersistFailCode : List PersistEnv → Nat
  | [] => ERROR_SUCCESS
  | e :: es =>
    if persistEnvCode e ≠ ERROR_SUCCESS then persistEnvCode e
    else firstPersistFailCode es

/-- The full persistence phase including the `cleanup_szSeqFilename`
handler: on failure, every file named by a non-empty slot is deleted;
the second component is the list of this phase's files remaining on
disk. -/
def evaluateTAPInterfacesPersist (envs : List PersistEnv) : Nat × List String :=
  ((persistGo envs).1,
    if (persistGo envs).1 ≠ ERROR_SUCCESS then
      (persistGo envs).2.2.filter
        (fun p => !((persistGo envs).2.1.filter (fun q => !(q == ""))).contains p)
    else (persistGo envs).2.2)

theorem setupCreates_spec (s : SetupOutcome) (hwf : setupWf s = true) :
    ∀ p ∈ setupCreates s, p = setupSlot s ∧ p ≠ "" := by
  cases s with
  | tempPathFail e => intro p hp; cases hp
  | tempFileFail e d => intro p hp; cases hp
  | setPropFail e q =>
    intro p hp
    simp only [setupCreates, List.mem_singleton] at hp
    subst hp
    simp only [setupWf, Bool.and_eq_true, decide_eq_true_eq] at hwf
    exact ⟨rfl, hwf.2⟩
  | setPropCleanupFail e q =>
    intro p hp
    simp only [setupCreates, List.mem_singleton] at hp
    subst hp
    simp only [setupWf, Bool.and_eq_true, decide_eq_true_eq] at hwf
    exact ⟨rfl, hwf.2⟩
  | ok q =>
    intro p hp
    simp only [setupCreates, List.mem_singleton] at hp
    subst hp
    simp only [setupWf, decide_eq_true_eq] at hwf
    exact ⟨rfl, hwf⟩

/-- The loop's final code is the first failing step's code. -/
theorem persistGo_code (envs : List PersistEnv)
    (hwf : ∀ e ∈ envs, persistEnvWf e = true) :
    (persistGo envs).1 = firstPersistFailCode envs := by
  induction envs with
  | nil => rfl
  | cons e es ih =>
    have hwfe := hwf e (List.mem_cons_self e es)
    have hwfes : ∀ x ∈ es, persistEnvWf x = true :=
      fun x hx => hwf x (List.mem_cons_of_mem e hx)
    by_cases h1 : setupCode e.setup = ERROR_SUCCESS
    · by_cases h2 : e.createFail = true
      · have hce : e.createErr ≠ ERROR_SUCCESS := by
          unfold persistEnvWf at hwfe
          simp only [Bool.and_eq_true, Bool.or_eq_true, Bool.not_eq_true',
            decide_eq_true_eq] at hwfe
          rcases hwfe.2 with h | h
          · rw [h2] at h
            cases h
          · exact h
        simp [persistGo, firstPersistFailCode, persistEnvCode, h1, h2, hce]
      · by_cases h3 : e.saveCode = ERROR_SUCCESS
        · simp [persistGo, firstPersistFailCode, persistEnvCode, h1, h2, h3, ih hwfes]
        · simp [persistGo, firstPersistFailCode, persistEnvCode, h1, h2, h3]
    · simp [persistGo, firstPersistFailCode, persistEnvCode, h1]

theorem persistGo_cons_setup_fail (e : PersistEnv) (es : List PersistEnv)
    (h : setupCode e.setup ≠ ERROR_SUCCESS) :
    persistGo (e :: es) = (setupCode e.setup, [setupSlot e.setup], setupCreates e.setup) := by
  unfold persistGo
  rw [if_pos h]

theorem persistGo_cons_create_fail (e : PersistEnv) (es : List PersistEnv)
    (h1 : setupCode e.setup = ERROR_SUCCESS) (h2 : e.createFail = true) :
    persistGo (e :: es) = (e.createErr, [setupSlot e.setup], setupCreates e.setup) := by
  unfold persistGo
  rw [if_neg (by simp [h1]), if_pos h2]

theorem persistGo_cons_save_fail (e : PersistEnv) (es : List PersistEnv)
    (h1 : setupCode e.setup = ERROR_SUCCESS) (h2 : e.createFail = false)
    (h3 : e.saveCode ≠ ERROR_SUCCESS) :
    persistGo (e :: es) = (e.saveCode, [setupSlot e.setup], setupCreates e.setup) := by
  unfold persistGo
  rw [if_neg (by simp [h1]), if_neg (by simp [h2]), if_pos h3]

theorem persistGo_cons_all_ok (e : PersistEnv) (es : List PersistEnv)
    (h1 : setupCode e.setup = ERROR_SUCCESS) (h2 : e.createFail = false)
    (h3 : e.saveCode = ERROR_SUCCESS) :
    persistGo (e :: es)
      = ((persistGo es).1, setupSlot e.setup :: (persistGo es).2.1,
          setupCreates e.setup ++ (persistGo es).2.2) := by
  rw [persistGo]
  rw [if_neg (by simp [h1]), if_neg (by simp [h2]), if_neg (by simp [h3])]

/-- Every file created during the loop is named by some populated slot,
and by a non-empty name. -/
theorem persistGo_created (envs : List PersistEnv)
    (hwf : ∀ e ∈ envs, persistEnvWf e = true) :
    ∀ p ∈ (persistGo envs).2.2, p ∈ (persistGo envs).2.1 ∧ p ≠ "" := by
  induction envs with
  | nil => intro p hp; cases hp
  | cons e es ih =>
    have hwfe := hwf e (List.mem_cons_self e es)
    have hwfes : ∀ x ∈ es, persistEnvWf x = true :=
      fun x hx => hwf x (List.mem_cons_of_mem e hx)
    have hwfs : setupWf e.setup = true := by
      unfold persistEnvWf at hwfe
      exact (Bool.and_eq_true _ _ |>.mp hwfe).1
    by_cases h1 : setupCode e.setup = ERROR_SUCCESS
    · by_cases h2 : e.createFail = true
      · intro p hp
        rw [persistGo_cons_create_fail e es h1 h2] at hp ⊢
        obtain ⟨hps, hne⟩ := setupCreates_spec e.setup hwfs p hp
        exact ⟨by simp [hps], hne⟩
      · have h2f : e.createFail = false := by
          cases hcf : e.createFail
          · rfl
          · exact absurd hcf h2
        by_cases h3 : e.saveCode = ERROR_SUCCESS
        · intro p hp
          rw [persistGo_cons_all_ok e es h1 h2f h3] at hp ⊢
          have hp' : p ∈ setupCreates e.setup ++ (persistGo es).2.2 := hp
          rw [List.mem_append] at hp'
          rcases hp' with hpa | hpb
          · obtain ⟨hps, hne⟩ := setupCreates_spec e.setup hwfs p hpa
            exact ⟨by simp [hps], hne⟩
          · obtain ⟨hmem, hne⟩ := ih hwfes p hpb
            exact ⟨by simp [hmem], hne⟩
        · intro p hp
          rw [persistGo_cons_save_fail e es h1 h2f h3] at hp ⊢
          obtain ⟨hps, hne⟩ := setupCreates_spec e.setup hwfs p hp
          exact ⟨by simp [hps], hne⟩
    · intro p hp
      rw [persistGo_cons_setup_fail e es h1] at hp ⊢
      obtain ⟨hps, hne⟩ := setupCreates_spec e.setup hwfs p hp
      exact ⟨by simp [hps], hne⟩

/-- C7: if persisting any of the planned sequences fails — in filename
or property setup, file creation, or the write itself — the phase aborts
with the first failing step's error code and the
`cleanup_szSeqFilename` handler deletes every sequence file created in
this planning call: no file of the phase survives. -/
theorem c7_persist_failure_deletes_all (envs : List PersistEnv)
    (hwf : ∀ e ∈ envs, persistEnvWf e = true)
    (hfail : (evaluateTAPInterfacesPersist envs).1 ≠ ERROR_SUCCESS) :
    (evaluateTAPInterfacesPersist envs).2 = []
      ∧ (evaluateTAPInterfacesPersist envs).1 = firstPersistFailCode envs := by
  have hfail' : (persistGo envs).1 ≠ ERROR_SUCCESS := hfail
  refine ⟨?_, persistGo_code envs hwf⟩
  show (if (persistGo envs).1 ≠ ERROR_SUCCESS then _ else _) = _
  rw [if_pos hfail']
  rw [List.filter_eq_nil_iff]
  intro p hp
  obtain ⟨hmem, hne⟩ := persistGo_created envs hwf p hp
  simp [List.mem_filter, hmem, hne]

/-- C7 witness: a run where the first sequence persists fully and the
second fails at its `MsiSetProperty` call ends with the failing code 3
and with both created files deleted. -/
theorem c7_persist_failure_deletes_all_witness :
    (∀ e ∈ [(⟨.ok "f1.tmp", false, 0, 0⟩ : PersistEnv),
        ⟨.setPropFail 3 "f2.tmp", false, 0, 0⟩], persistEnvWf e = true)
      ∧ (evaluateTAPInterfacesPersist [(⟨.ok "f1.tmp", false, 0, 0⟩ : PersistEnv),
          ⟨.setPropFail 3 "f2.tmp", false, 0, 0⟩]).1 ≠ ERROR_SUCCESS
      ∧ (evaluateTAPInterfacesPersist [(⟨.ok "f1.tmp", false, 0, 0⟩ : PersistEnv),
          ⟨.setPropFail 3 "f2.tmp", false, 0, 0⟩]).2 = [] :=
  ⟨by decide, by decide,
   (c7_persist_failure_deletes_all
     [(⟨.ok "f1.tmp", false, 0, 0⟩ : PersistEnv), ⟨.setPropFail 3 "f2.tmp", false, 0, 0⟩]
     (by decide) (by decide)).1⟩

/-! ## `ProcessDeferredAction` (lines 513-680)

The deferred/commit/rollback custom action.  A `DeferredEnv` records
the outcome of each external call:

* `bIsCleanup` — `MsiGetMode(MSIRUNMODE_COMMIT) || MsiGetMode(MSIRUNMODE_ROLLBACK)`;
* `tokenCode`, `tokenValue` — `msi_get_string(hInstall, "CustomActionData", ...)`;
* `openFail`, `openErr` — whether `CreateFile(..., OPEN_EXISTING, ...)`
  on the token path returns `INVALID_HANDLE_VALUE`, and its
  `GetLastError` value;
* `loadCode`, `loadedSeq` — `msica_op_seq_load`'s result and, on
  success, the decoded sequence;
* `execCode` — the result of `msica_op_seq_process` on the loaded
  sequence (the operation handlers live in `msica_op.c`, outside the
  visible sources, so the executed result is environment-supplied);
* `cleanupCommitSeq` / `cleanupRollbackSeq` —
  `session.seq_cleanup[MSICA_CLEANUP_ACTION_COMMIT]` /
  `...[MSICA_CLEANUP_ACTION_ROLLBACK]` as populated by the handlers
  during that execution;
* `createCmFail`/`createCmErr`/`saveCmCode` and the `Rb` versions —
  the `CreateFile(..., CREATE_ALWAYS, ...)` and `msica_op_seq_save`
  outcomes for the commit (loop index 0) and rollback (loop index 1)
  cleanup files;
* `inlineExecCode` — the (discarded) result of the inline
  `msica_op_seq_process` of the fallback path.

The result records the returned `uiResult`, the trace of
`msica_op_seq_process` invocations (each with the `continue_on_error`
flag of the session it was given), the cleanup files created, and every
path passed to `DeleteFile`. -/

/-- Session context initialized by `openvpnmsica_session_init`.
Modelled from the spec: `openvpnmsica_session_init` lives in
`msica_op.c`, which is not among the visible sources; per the spec (§3
"Session"), it stores the continue-on-error flag and the
rollback-enabled flag and gives the session two empty cleanup
journals. -/
structure MsicaSession where
  continueOnError : Bool
  rollbackEnabled : Bool
  seqCleanupCommit : List MsicaOp
  seqCleanupRollback : List MsicaOp
deriving DecidableEq, Repr

def openvpnmsica_session_init (continueOnError rollbackEnabled : Bool) :
    MsicaSession :=
  ⟨continueOnError, rollbackEnabled, [], []⟩

structure DeferredEnv where
  bIsCleanup : Bool
  tokenCode : Nat
  tokenValue : String
  openFail : Bool
  openErr : Nat
  loadCode : Nat
  loadedSeq : List MsicaOp
  execCode : Nat
  cleanupCommitSeq : List MsicaOp
  cleanupRollbackSeq : List MsicaOp
  createCmFail : Bool
  createCmErr : Nat
  saveCmCode : Nat
  createRbFail : Bool
  createRbErr : Nat
  saveRbCode : Nat
  inlineExecCode : Nat
deriving DecidableEq, Repr

/-- One `msica_op_seq_process` invocation: the sequence processed and
the `continue_on_error` flag of the session it ran under. -/
structure ProcessCall where
  seq : List MsicaOp
  continueOnError : Bool
deriving DecidableEq, Repr

structure DeferredResult where
  code : Nat
  processCalls : List ProcessCall
  createdFiles : List String
  deletedFiles : List String
deriving DecidableEq, Repr

/-- `dwResultEx` at the `cleanup_session` label: the code of the first
failing step of the cleanup-file writing loop (lines 609-637), or
`ERROR_SUCCESS` when both files were created and saved. -/
def deferredPersistCode (env : DeferredEnv) : Nat :=
  if env.createCmFail then env.createCmErr
  else if env.saveCmCode ≠ ERROR_SUCCESS then env.saveCmCode
  else if env.createRbFail then env.createRbErr
  else if env.saveRbCode ≠ ERROR_SUCCESS then env.saveRbCode
  else ERROR_SUCCESS

/-- Which cleanup files the writing loop created before stopping. -/
def deferredPersistCreated (env : DeferredEnv) (fnCm fnRb : String) :
    List String :=
  if env.createCmFail then []
  else if env.saveCmCode ≠ ERROR_SUCCESS then [fnCm]
  else if env.createRbFail then [fnCm]
  else [fnCm, fnRb]

/-- The whole `ProcessDeferredAction` control flow.  Note the append
loop at lines 591-608: the commit cleanup sequence (index 0) receives a
`delete-file` entry for the *rollback* file and vice versa
(`seq_cleanup[MSICA_CLEANUP_ACTION_COUNT - 1 - i]`), and the fallback at
`cleanup_session` (lines 639-662) always processes
`seq_cleanup[MSICA_CLEANUP_ACTION_ROLLBACK]` under a fresh session with
continue-on-error set, then passes both derived filenames to
`DeleteFile`; the function's `uiResult` is never overwritten by
`dwResultEx`. -/
def processDeferredAction (env : DeferredEnv) : DeferredResult :=
  if env.tokenCode ≠ ERROR_SUCCESS then ⟨env.tokenCode, [], [], []⟩
  else if env.openFail then
    if env.openErr = ERROR_FILE_NOT_FOUND ∧ env.bIsCleanup then
      ⟨ERROR_SUCCESS, [], [], []⟩
    else ⟨env.openErr, [], [], []⟩
  else if env.loadCode ≠ ERROR_SUCCESS then ⟨env.loadCode, [], [], []⟩
  else
    let session := openvpnmsica_session_init env.bIsCleanup false
    let mainCall : ProcessCall := ⟨env.loadedSeq, session.continueOnError⟩
    if env.bIsCleanup then ⟨ERROR_SUCCESS, [mainCall], [], [env.tokenValue]⟩
    else
      let fnCm := deferredCleanupFilename env.tokenValue "cm"
      let fnRb := deferredCleanupFilename env.tokenValue "rb"
      let seqRb := env.cleanupRollbackSeq ++ [MsicaOp.fileDelete 0 fnCm]
      if deferredPersistCode env ≠ ERROR_SUCCESS then
        let sessionCleanup := openvpnmsica_session_init true false
        ⟨env.execCode,
         [mainCall, ⟨seqRb, sessionCleanup.continueOnError⟩],
         deferredPersistCreated env fnCm fnRb,
         [fnCm, fnRb, env.tokenValue]⟩
      else
        ⟨env.execCode, [mainCall], deferredPersistCreated env fnCm fnRb,
         [env.tokenValue]⟩

/-! ### Deferred-action claim theorems -/

/-- Concrete environment: non-cleanup invocation, successful token read,
open, load and execution, with `CreateFile` for the commit cleanup file
failing with error code 5. -/
def deferredEnvPersistFail : DeferredEnv :=
  ⟨false, 0, "seq.tmp", false, 0, 0, [], 0, [], [], true, 5, 0, false, 0, 0, 0⟩

/-- C1 counterexample: in a non-cleanup invocation whose main execution
succeeded (`uiResult = ERROR_SUCCESS`) and whose cleanup-file
persistence failed with code 5, `ProcessDeferredAction` returns
`ERROR_SUCCESS` — the persistence failure code is *not* returned
(`uiResult` is deliberately not overwritten by `dwResultEx`). -/
theorem c1_return_code_counterexample :
    deferredEnvPersistFail.createCmFail = true
      ∧ deferredEnvPersistFail.createCmErr = 5
      ∧ deferredPersistCode deferredEnvPersistFail = 5
      ∧ (processDeferredAction deferredEnvPersistFail).code = ERROR_SUCCESS
      ∧ (5 : Nat) ≠ ERROR_SUCCESS :=
  ⟨rfl, rfl, by decide, by decide, by decide⟩

/-- C1 (amended): in a non-cleanup `ProcessDeferredAction` invocation,
if persisting either cleanup sequence to its derived file fails, the
in-memory rollback-cleanup sequence (always the rollback one, even when
the commit write failed; it includes the just-appended delete-file entry
for the commit sibling) is immediately processed under a fresh session
with continue-on-error enabled, every cleanup file derived from the
token is passed to `DeleteFile`, and the invocation returns the main
execution's result code — the persistence failure code itself is logged
but not returned. -/
theorem c1_persist_failure_fallback (env : DeferredEnv)
    (hnc : env.bIsCleanup = false) (htok : env.tokenCode = ERROR_SUCCESS)
    (hopen : env.openFail = false) (hload : env.loadCode = ERROR_SUCCESS)
    (hfail : deferredPersistCode env ≠ ERROR_SUCCESS) :
    (processDeferredAction env).processCalls
        = [⟨env.loadedSeq, false⟩,
           ⟨env.cleanupRollbackSeq
              ++ [MsicaOp.fileDelete 0 (deferredCleanupFilename env.tokenValue "cm")],
            true⟩]
      ∧ (processDeferredAction env).deletedFiles
          = [deferredCleanupFilename env.tokenValue "cm",
             deferredCleanupFilename env.tokenValue "rb", env.tokenValue]
      ∧ (processDeferredAction env).code = env.execCode := by
  refine ⟨?_, ?_, ?_⟩ <;>
    simp [processDeferredAction, openvpnmsica_session_init, hnc, htok, hopen,
      hload, hfail]

/-- C1 witness: the amended fallback theorem applied at the concrete
failing environment. -/
theorem c1_persist_failure_fallback_witness :
    (deferredEnvPersistFail.bIsCleanup = false
        ∧ deferredPersistCode deferredEnvPersistFail ≠ ERROR_SUCCESS)
      ∧ (processDeferredAction deferredEnvPersistFail).deletedFiles
          = [deferredCleanupFilename "seq.tmp" "cm",
             deferredCleanupFilename "seq.tmp" "rb", "seq.tmp"] :=
  ⟨⟨rfl, by decide⟩,
   (c1_persist_failure_fallback deferredEnvPersistFail rfl rfl rfl rfl
     (by decide)).2.1⟩

/-- C5: when `CreateFile` on the token path fails with
`ERROR_FILE_NOT_FOUND`, a commit/rollback cleanup invocation returns
success having processed zero sequences, while a non-cleanup invocation
returns the hard failure `ERROR_FILE_NOT_FOUND`. -/
theorem c5_missing_file (env : DeferredEnv)
    (htok : env.tokenCode = ERROR_SUCCESS) (hopen : env.openFail = true)
    (herr : env.openErr = ERROR_FILE_NOT_FOUND) :
    (env.bIsCleanup = true →
        processDeferredAction env = ⟨ERROR_SUCCESS, [], [], []⟩)
      ∧ (env.bIsCleanup = false →
          (processDeferredAction env).code = ERROR_FILE_NOT_FOUND
            ∧ (processDeferredAction env).code ≠ ERROR_SUCCESS
            ∧ (processDeferredAction env).processCalls = []) := by
  constructor
  · intro hc
    simp [processDeferredAction, htok, hopen, herr, hc]
  · intro hc
    have hcode : (processDeferredAction env).code = ERROR_FILE_NOT_FOUND := by
      simp [processDeferredAction, htok, hopen, herr, hc]
    refine ⟨hcode, ?_, ?_⟩
    · rw [hcode]
      decide
    · simp [processDeferredAction, htok, hopen, herr, hc]

/-- C5 witness: the missing-file theorem applied to a cleanup and a
non-cleanup invocation on a concrete absent file. -/
theorem c5_missing_file_witness :
    processDeferredAction ⟨true, 0, "gone.tmp", true, ERROR_FILE_NOT_FOUND, 0, [],
        0, [], [], false, 0, 0, false, 0, 0, 0⟩ = ⟨ERROR_SUCCESS, [], [], []⟩
      ∧ (processDeferredAction ⟨false, 0, "gone.tmp", true, ERROR_FILE_NOT_FOUND, 0,
          [], 0, [], [], false, 0, 0, false, 0, 0, 0⟩).code = ERROR_FILE_NOT_FOUND :=
  ⟨(c5_missing_file _ rfl rfl rfl).1 rfl, ((c5_missing_file _ rfl rfl rfl).2 rfl).1⟩

/-- C6: a commit/rollback cleanup invocation that loads its sequence
successfully processes it under a session whose continue-on-error flag
is set, and returns `ERROR_SUCCESS` whatever the execution result was;
it writes no cleanup files and deletes the consumed input file. -/
theorem c6_cleanup_pass (env : DeferredEnv)
    (hclean : env.bIsCleanup = true) (htok : env.tokenCode = ERROR_SUCCESS)
    (hopen : env.openFail = false) (hload : env.loadCode = ERROR_SUCCESS) :
    processDeferredAction env
      = ⟨ERROR_SUCCESS, [⟨env.loadedSeq, true⟩], [], [env.tokenValue]⟩ := by
  simp [processDeferredAction, openvpnmsica_session_init, hclean, htok, hopen,
    hload]

/-- C6 witness: a cleanup invocation whose execution failed with
`ERROR_INSTALL_FAILURE` still reports `ERROR_SUCCESS` and ran its
sequence in continue-on-error mode. -/
theorem c6_cleanup_pass_witness :
    (⟨true, 0, "seq-rb.tmp", false, 0, 0, [MsicaOp.fileDelete 0 "seq-cm.tmp"],
        ERROR_INSTALL_FAILURE, [], [], false, 0, 0, false, 0, 0, 0⟩ :
          DeferredEnv).execCode = ERROR_INSTALL_FAILURE
      ∧ processDeferredAction ⟨true, 0, "seq-rb.tmp", false, 0, 0,
          [MsicaOp.fileDelete 0 "seq-cm.tmp"], ERROR_INSTALL_FAILURE, [], [],
          false, 0, 0, false, 0, 0, 0⟩
        = ⟨ERROR_SUCCESS, [⟨[MsicaOp.fileDelete 0 "seq-cm.tmp"], true⟩], [],
           ["seq-rb.tmp"]⟩ :=
  ⟨rfl, c6_cleanup_pass _ rfl rfl rfl rfl⟩

/-- C10: whenever the sequence file named by the token is opened and
decoded successfully, the token path is passed to `DeleteFile` before
returning — on the cleanup path, on the plain non-cleanup path and on
the persistence-failure fallback path alike; when decoding fails, no
`DeleteFile` happens at all and the input file stays. -/
theorem c10_input_file_deleted (env : DeferredEnv)
    (htok : env.tokenCode = ERROR_SUCCESS) (hopen : env.openFail = false) :
    (env.loadCode = ERROR_SUCCESS →
        env.tokenValue ∈ (processDeferredAction env).deletedFiles)
      ∧ (env.loadCode ≠ ERROR_SUCCESS →
          (processDeferredAction env).deletedFiles = []) := by
  constructor
  · intro hl
    by_cases hc : env.bIsCleanup = true
    · simp [processDeferredAction, htok, hopen, hl, hc]
    · by_cases hp : deferredPersistCode env = ERROR_SUCCESS
      · simp [processDeferredAction, htok, hopen, hl, hc, hp]
      · simp [processDeferredAction, htok, hopen, hl, hc, hp]
  · intro hl
    simp [processDeferredAction, htok, hopen, hl]

/-- C10 witness: the token file is deleted after a successful load, and
left alone after a decode failure (`loadCode = 13`). -/
theorem c10_input_file_deleted_witness :
    "seq.tmp" ∈ (processDeferredAction ⟨true, 0, "seq.tmp", false, 0, 0, [],
        0, [], [], false, 0, 0, false, 0, 0, 0⟩).deletedFiles
      ∧ (processDeferredAction ⟨true, 0, "seq.tmp", false, 0, 13, [],
          0, [], [], false, 0, 0, false, 0, 0, 0⟩).deletedFiles = [] :=
  ⟨(c10_input_file_deleted _ rfl rfl).1 rfl,
   (c10_input_file_deleted _ rfl rfl).2 (by decide)⟩
